import Mathlib

/-
Verification development for the ferroquimica-inventory repository.

The definitions below are a shallow embedding of the repository's core:
the two marketplace client modules (Amazon SP-API and Mercado Libre),
the two variants of the `syncAllInventory` reconciliation routine, and
the inventory HTTP route handlers.  Network and database effects are
modelled by explicit response values / oracle functions; a JavaScript
async function that may reject is embedded as an `Except String` value,
and one that resolves to `T | null` as an `Option`.
-/

/-- JavaScript truthiness of an optional string value: `undefined`, `null`
and the empty string are falsy, every other string is truthy. -/
def jsTruthyStr : Option String → Bool
  | none => false
  | some s => !s.isEmpty

/-- JavaScript `x || d` for an optional numeric field: an absent field or
the value `0` falls back to `d`. -/
def jsOrInt : Option Int → Int → Int
  | none, d => d
  | some v, d => if v = 0 then d else v

/-- JavaScript `a || b` for optional string values (the empty string is falsy). -/
def jsOrStr (a b : Option String) : Option String :=
  if jsTruthyStr a then a else b

/-- Outcome of one `fetch` call as seen by the calling code: a parsed
successful response body, a non-success HTTP status carrying the response
text, or the fetch itself rejecting with a message. -/
inductive HttpResult (α : Type) where
  | ok (body : α)
  | httpError (text : String)
  | netThrow (msg : String)
deriving DecidableEq, Repr

namespace Amazon

/-- The module-level `cachedToken` of amazon.ts: token string plus absolute
expiry instant in milliseconds. -/
structure Cache where
  token : String
  expiresAt : Int
deriving DecidableEq, Repr

/-- Body of a successful Amazon token-endpoint response. -/
structure TokenResp where
  access_token : String
  expires_in : Int
deriving DecidableEq, Repr

/-- Body of a fresh token-endpoint exchange: throws on a non-success
response, otherwise caches the token expiring `(expires_in - 300)` seconds
from now (stored in milliseconds). -/
def freshToken (now : Int) (resp : HttpResult TokenResp) :
    Except String (String × Option Cache) :=
  match resp with
  | .ok data =>
      .ok (data.access_token,
        some { token := data.access_token,
               expiresAt := now + (data.expires_in - 300) * 1000 })
  | .httpError t => .error ("Failed to get Amazon access token: " ++ t)
  | .netThrow m => .error m

/-- Amazon `getAccessToken`: returns the cached token when `now` is before
its expiry without touching the token endpoint, and otherwise performs one
token-endpoint call.  The second component counts the token-endpoint calls
made by this invocation. -/
def getAccessToken (cache : Option Cache) (now : Int) (resp : HttpResult TokenResp) :
    Except String (String × Option Cache) × Nat :=
  match cache with
  | some c =>
      if now < c.expiresAt then (.ok (c.token, some c), 0)
      else (freshToken now resp, 1)
  | none => (freshToken now resp, 1)

/-- First element of the `inventorySummaries` list of an Amazon inventory
read response, when present; its `totalQuantity` field may be absent. -/
structure InvSummary where
  totalQuantity : Option Int
deriving DecidableEq, Repr

/-- Amazon `getAmazonInventory`: the entire body, including the
`getAccessToken` call, sits inside a try/catch that resolves to `null`,
so the returned promise never rejects: every failure path, an auth
failure included, yields `Except.ok none`. -/
def getAmazonInventory (cache : Option Cache) (now : Int)
    (tokenResp : HttpResult TokenResp)
    (invResp : HttpResult (Option InvSummary)) :
    Except String (Option Int) :=
  match (getAccessToken cache now tokenResp).1 with
  | .error _ => .ok none
  | .ok _ =>
      match invResp with
      | .ok (some s) => .ok (some (jsOrInt s.totalQuantity 0))
      | .ok none => .ok none
      | .httpError _ => .ok none
      | .netThrow _ => .ok none

/-- Amazon `updateAmazonInventory`: same catch-all pattern, resolving to
`false` on every failure path, auth failures included. -/
def updateAmazonInventory (cache : Option Cache) (now : Int)
    (tokenResp : HttpResult TokenResp) (putResp : HttpResult Unit) :
    Except String Bool :=
  match (getAccessToken cache now tokenResp).1 with
  | .error _ => .ok false
  | .ok _ =>
      match putResp with
      | .ok _ => .ok true
      | .httpError _ => .ok false
      | .netThrow _ => .ok false

end Amazon

namespace ML

/-- The module-level `cachedMLToken` of mercadolibre.ts: token, refresh
token, absolute expiry instant in milliseconds. -/
structure Cache where
  token : String
  refreshToken : String
  expiresAt : Int
deriving DecidableEq, Repr

/-- Body of a successful Mercado Libre token-endpoint response. -/
structure TokenResp where
  access_token : String
  refresh_token : String
  expires_in : Int
deriving DecidableEq, Repr

/-- Mercado Libre `getAccessToken`: returns the cached token when `now` is
before its expiry; otherwise resolves the refresh credential as
`cachedMLToken?.refreshToken || process.env.ML_REFRESH_TOKEN`, throws when
no credential is available (before any endpoint call), and otherwise
performs one token-endpoint call.  The second component counts the
token-endpoint calls made by this invocation. -/
def getAccessToken (cache : Option Cache) (envRefreshToken : Option String)
    (now : Int) (resp : HttpResult TokenResp) :
    Except String (String × Option Cache) × Nat :=
  match cache with
  | some c =>
      if now < c.expiresAt then (.ok (c.token, some c), 0)
      else
        if jsTruthyStr (jsOrStr (some c.refreshToken) envRefreshToken) then
          match resp with
          | .ok data =>
              (.ok (data.access_token,
                some { token := data.access_token,
                       refreshToken := data.refresh_token,
                       expiresAt := now + (data.expires_in - 300) * 1000 }), 1)
          | .httpError t => (.error ("Failed to get ML access token: " ++ t), 1)
          | .netThrow m => (.error m, 1)
        else
          (.error "No ML refresh token available. Please authorize the app first.", 0)
  | none =>
      if jsTruthyStr envRefreshToken then
        match resp with
        | .ok data =>
            (.ok (data.access_token,
              some { token := data.access_token,
                     refreshToken := data.refresh_token,
                     expiresAt := now + (data.expires_in - 300) * 1000 }), 1)
        | .httpError t => (.error ("Failed to get ML access token: " ++ t), 1)
        | .netThrow m => (.error m, 1)
      else
        (.error "No ML refresh token available. Please authorize the app first.", 0)

/-- One element of an item's `variations` list; `available_quantity` may be
absent in the JSON. -/
structure Variation where
  id : Int
  available_quantity : Option Int
deriving DecidableEq, Repr

/-- A Mercado Libre item read response: top-level `available_quantity`
plus an optional `variations` list. -/
structure Item where
  available_quantity : Option Int
  variations : Option (List Variation)
deriving DecidableEq, Repr

/-- Mercado Libre `getMLInventory` (the variant-aware version): wrapped in
a catch-all resolving to `null`, so it never rejects.  With a truthy
`variationId` and a non-empty `variations` list it searches the list for
`v.id.toString() === variationId` and returns that variation's quantity,
or `null` when no variation matches; in every other case it falls back to
the item-level `available_quantity`. -/
def getMLInventory (cache : Option Cache) (envRefreshToken : Option String)
    (now : Int) (tokenResp : HttpResult TokenResp)
    (itemResp : HttpResult Item) (variationId : Option String) :
    Except String (Option Int) :=
  match (getAccessToken cache envRefreshToken now tokenResp).1 with
  | .error _ => .ok none
  | .ok _ =>
      match itemResp with
      | .httpError _ => .ok none
      | .netThrow _ => .ok none
      | .ok data =>
          match data.variations with
          | some vars =>
              if jsTruthyStr variationId && decide (0 < vars.length) then
                match vars.find? (fun v => toString v.id == variationId.getD "") with
                | some v => .ok (some (jsOrInt v.available_quantity 0))
                | none => .ok none
              else
                .ok (some (jsOrInt data.available_quantity 0))
          | none => .ok (some (jsOrInt data.available_quantity 0))

/-- Mercado Libre `updateMLInventory`: catch-all pattern resolving to
`false` on every failure path; the `variationId` only shapes the PUT body. -/
def updateMLInventory (cache : Option Cache) (envRefreshToken : Option String)
    (now : Int) (tokenResp : HttpResult TokenResp)
    (putResp : HttpResult Unit) (variationId : Option String) :
    Except String Bool :=
  match (getAccessToken cache envRefreshToken now tokenResp).1 with
  | .error _ => .ok false
  | .ok _ =>
      match putResp, variationId with
      | .ok _, _ => .ok true
      | .httpError _, _ => .ok false
      | .netThrow _, _ => .ok false

end ML

/-- A row of the Product table: identity, SKU, display name, warehouse
quantity, last-known marketplace quantities, optional external ids, and
the nullable last-sync timestamp. -/
structure Product where
  id : Nat
  sku : String
  name : String
  warehouseQty : Int
  amazonQty : Int
  mlQty : Int
  amazonAsin : Option String
  mlItemId : Option String
  lastSyncAt : Option Int
deriving DecidableEq, Repr

/-- Oracle environment for one reconciliation pass: the outcome of each
imported marketplace call and of the per-product database update, keyed
exactly the way the source keys them (Amazon calls by SKU, Mercado Libre
calls by item id, the database update by product id).  Each oracle is an
`Except` because an imported async function may reject. -/
structure SyncEnv where
  getAmazon : String → Except String (Option Int)
  getML : String → Except String (Option Int)
  updateAmazon : String → Int → Except String Bool
  updateML : String → Int → Except String Bool
  dbUpdate : Nat → Except String Unit
  now : Int

/-- One row of the sync audit log (`prisma.syncLog.create`). -/
structure LogEntry where
  status : String
  message : String
deriving DecidableEq, Repr

namespace SyncA

/-- One element of `SyncResult.details` in the sales-delta variant of
sync.ts; `error` is the recorded per-product error string. -/
structure Detail where
  sku : String
  previousQty : Int
  newQty : Int
  amazonSales : Int
  mlSales : Int
  amazonUpdated : Bool
  mlUpdated : Bool
  error : Option String
deriving DecidableEq, Repr

/-- The argument of the `prisma.product.update` call at the end of one
product's processing in the sales-delta variant. -/
structure DbWrite where
  id : Nat
  warehouseQty : Int
  amazonQty : Int
  mlQty : Int
  lastSyncAt : Int
deriving DecidableEq, Repr

/-- Result of processing one product: the detail row pushed onto
`results`, and the database write that was issued (none when the
processing threw before reaching the write or the write itself threw). -/
structure ProcOut where
  detail : Detail
  write : Option DbWrite
deriving DecidableEq, Repr

/-- The `productResult` initial value of the sales-delta loop body. -/
def initDetail (p : Product) : Detail :=
  { sku := p.sku, previousQty := p.warehouseQty, newQty := p.warehouseQty,
    amazonSales := 0, mlSales := 0, amazonUpdated := false,
    mlUpdated := false, error := none }

/-- Body of the sales-delta per-product loop (sync.ts lines 44-121):
fetch current quantities where an external id is configured (falling back
to the recorded quantity when the fetch resolves to `null`), compute
sales as the non-negative decrease per marketplace, clamp the new
quantity at zero, push it to each configured marketplace, and write all
three quantity fields.  A thrown error at any step is caught and stored
in the detail's `error` field, preserving the fields assigned so far. -/
def processProduct (env : SyncEnv) (p : Product) : ProcOut :=
  let r0 := initDetail p
  match (if jsTruthyStr p.amazonAsin then env.getAmazon p.sku else .ok none) with
  | .error e => { detail := { r0 with error := some e }, write := none }
  | .ok amazonData =>
    let currentAmazonQty := amazonData.getD p.amazonQty
    match (if jsTruthyStr p.mlItemId then env.getML (p.mlItemId.getD "") else .ok none) with
    | .error e => { detail := { r0 with error := some e }, write := none }
    | .ok mlData =>
      let currentMLQty := mlData.getD p.mlQty
      let amazonSales := max 0 (p.amazonQty - currentAmazonQty)
      let mlSales := max 0 (p.mlQty - currentMLQty)
      let totalSales := amazonSales + mlSales
      let newQty := max 0 (p.warehouseQty - totalSales)
      let r1 := { r0 with amazonSales := amazonSales, mlSales := mlSales,
                          newQty := newQty }
      match (if jsTruthyStr p.amazonAsin then env.updateAmazon p.sku newQty else .ok false) with
      | .error e => { detail := { r1 with error := some e }, write := none }
      | .ok amazonSuccess =>
        let r2 := { r1 with amazonUpdated := amazonSuccess }
        match (if jsTruthyStr p.mlItemId then env.updateML (p.mlItemId.getD "") newQty else .ok false) with
        | .error e => { detail := { r2 with error := some e }, write := none }
        | .ok mlSuccess =>
          let r3 := { r2 with mlUpdated := mlSuccess }
          match env.dbUpdate p.id with
          | .error e => { detail := { r3 with error := some e }, write := none }
          | .ok _ =>
              { detail := r3,
                write := some { id := p.id, warehouseQty := newQty,
                                amazonQty := newQty, mlQty := newQty,
                                lastSyncAt := env.now } }

/-- The sequential for-loop of the sales-delta variant, iterating the
snapshot returned by `findMany` in order: collected detail rows in
processing order, plus the database writes that were issued. -/
def runLoop (env : SyncEnv) : List Product → List Detail × List DbWrite
  | [] => ([], [])
  | p :: ps =>
    let o := processProduct env p
    let rest := runLoop env ps
    (o.detail :: rest.1, o.write.toList ++ rest.2)

/-- The value returned by the sales-delta `syncAllInventory`, together
with the audit log entry it persisted and the database writes it issued. -/
structure BatchOut where
  success : Bool
  message : String
  details : List Detail
  writes : List DbWrite
  log : LogEntry
deriving DecidableEq, Repr

/-- Sales-delta `syncAllInventory` (sync.ts lines 37-159).  The product
listing is `prisma.product.findMany()` with no `orderBy` clause, so the
snapshot is taken exactly in the order the persistence layer returns it;
`listResult` is that call's outcome.  A listing failure hits the outer
catch and logs an `error`-status entry. -/
def syncAllInventory (env : SyncEnv) (listResult : Except String (List Product)) :
    BatchOut :=
  match listResult with
  | .error e =>
      { success := false, message := e, details := [], writes := [],
        log := { status := "error", message := e } }
  | .ok products =>
      let r := runLoop env products
      let details := r.1
      let successCount := (details.filter (fun d => d.error.isNone &&
          (d.amazonUpdated || d.mlUpdated ||
           decide (0 < d.amazonSales) || decide (0 < d.mlSales)))).length
      let errorCount := (details.filter (fun d => d.error.isSome)).length
      let totalSales := details.foldl (fun s d => s + d.amazonSales + d.mlSales) 0
      { success := errorCount == 0,
        message := "Sincronización completada. " ++ toString successCount ++
          " productos actualizados. Ventas detectadas: " ++ toString totalSales,
        details := details,
        writes := r.2,
        log := { status := if errorCount == 0 then "success" else "partial",
                 message := "Sincronizados " ++ toString successCount ++ "/" ++
                   toString details.length ++ " productos. Ventas detectadas: " ++
                   toString totalSales } }

end SyncA

namespace SyncB

/-- One element of `SyncResult.details` in the direct-overwrite variant. -/
structure Detail where
  sku : String
  amazonUpdated : Bool
  mlUpdated : Bool
  error : Option String
deriving DecidableEq, Repr

/-- One inventory write attempted against a marketplace: platform label,
the key the source passes (SKU for Amazon, item id for Mercado Libre),
and the pushed quantity. -/
structure Push where
  platform : String
  key : String
  qty : Int
deriving DecidableEq, Repr

/-- Result of processing one product in the direct-overwrite variant:
the detail row, the product row as it stands after the database write
(unchanged when processing threw), and the marketplace writes attempted. -/
structure ProcOut where
  detail : Detail
  newProd : Product
  pushes : List Push
deriving DecidableEq, Repr

/-- Body of the direct-overwrite per-product loop: fetch current
marketplace quantities purely for bookkeeping, push the existing
warehouse quantity unchanged to each configured marketplace, and persist
only the freshly fetched marketplace quantities plus the sync timestamp
(the `data` of the update names `amazonQty`, `mlQty`, `lastSyncAt` and
nothing else).  A thrown error is caught into the detail's `error`. -/
def processProduct (env : SyncEnv) (p : Product) : ProcOut :=
  let r0 : Detail := { sku := p.sku, amazonUpdated := false,
                       mlUpdated := false, error := none }
  match (if jsTruthyStr p.amazonAsin then env.getAmazon p.sku else .ok none) with
  | .error e => { detail := { r0 with error := some e }, newProd := p, pushes := [] }
  | .ok amazonData =>
    let amazonQty := amazonData.getD p.amazonQty
    match (if jsTruthyStr p.mlItemId then env.getML (p.mlItemId.getD "") else .ok none) with
    | .error e => { detail := { r0 with error := some e }, newProd := p, pushes := [] }
    | .ok mlData =>
      let mlQty := mlData.getD p.mlQty
      let warehouseQty := p.warehouseQty
      let aPushes := if jsTruthyStr p.amazonAsin then
          [{ platform := "amazon", key := p.sku, qty := warehouseQty : Push }] else []
      match (if jsTruthyStr p.amazonAsin then env.updateAmazon p.sku warehouseQty else .ok false) with
      | .error e => { detail := { r0 with error := some e }, newProd := p, pushes := aPushes }
      | .ok amazonSuccess =>
        let r1 := { r0 with amazonUpdated := amazonSuccess }
        let mPushes := if jsTruthyStr p.mlItemId then
            [{ platform := "ml", key := p.mlItemId.getD "", qty := warehouseQty : Push }] else []
        match (if jsTruthyStr p.mlItemId then env.updateML (p.mlItemId.getD "") warehouseQty else .ok false) with
        | .error e => { detail := { r1 with error := some e }, newProd := p,
                        pushes := aPushes ++ mPushes }
        | .ok mlSuccess =>
          let r2 := { r1 with mlUpdated := mlSuccess }
          match env.dbUpdate p.id with
          | .error e => { detail := { r2 with error := some e }, newProd := p,
                          pushes := aPushes ++ mPushes }
          | .ok _ =>
              let written : Product :=
                { p with amazonQty := amazonQty, mlQty := mlQty,
                         lastSyncAt := some env.now }
              { detail := r2, newProd := written, pushes := aPushes ++ mPushes }

/-- The sequential for-loop of the direct-overwrite variant: detail rows
in processing order, attempted marketplace writes in order, and the
product table after the loop's database writes. -/
def runLoop (env : SyncEnv) : List Product → List Detail × List Push × List Product
  | [] => ([], [], [])
  | p :: ps =>
    let o := processProduct env p
    let rest := runLoop env ps
    (o.detail :: rest.1, o.pushes ++ rest.2.1, o.newProd :: rest.2.2)

/-- The value returned by the direct-overwrite `syncAllInventory`,
together with the audit log entry and the resulting product table. -/
structure BatchOut where
  success : Bool
  message : String
  details : List Detail
  pushes : List Push
  db : List Product
  log : LogEntry
deriving DecidableEq, Repr

/-- Direct-overwrite `syncAllInventory`: same batch accounting as the
sales-delta variant (`status` is `success` when no product recorded an
error, else `partial`; a listing failure logs an `error` entry). -/
def syncAllInventory (env : SyncEnv) (listResult : Except String (List Product)) :
    BatchOut :=
  match listResult with
  | .error e =>
      { success := false, message := e, details := [], pushes := [], db := [],
        log := { status := "error", message := e } }
  | .ok products =>
      let r := runLoop env products
      let details := r.1
      let successCount := (details.filter (fun d => d.error.isNone &&
          (d.amazonUpdated || d.mlUpdated))).length
      let errorCount := (details.filter (fun d => d.error.isSome)).length
      { success := errorCount == 0,
        message := "Sincronización completada. " ++ toString successCount ++
          " productos actualizados, " ++ toString errorCount ++ " errores.",
        details := details,
        pushes := r.2.1,
        db := r.2.2,
        log := { status := if errorCount == 0 then "success" else "partial",
                 message := "Sincronizados " ++ toString successCount ++ "/" ++
                   toString details.length ++ " productos" } }

/-- The product fields the direct-overwrite database write never names:
everything except `amazonQty`, `mlQty` and `lastSyncAt`. -/
def preservedFields (p : Product) :
    Nat × String × String × Int × Option String × Option String :=
  (p.id, p.sku, p.name, p.warehouseQty, p.amazonAsin, p.mlItemId)

end SyncB

/-- Body of the product-creation endpoint (POST /api/inventory): the new
row takes `warehouseQty || 0` from the request body, which passes any
non-zero number through unvalidated.  The quantity fields the create call
does not name default to zero per the schema's column defaults. -/
structure CreateBody where
  sku : String
  name : String
  warehouseQty : Option Int
  amazonAsin : Option String
  mlItemId : Option String
deriving DecidableEq, Repr

/-- The row written by the product-creation endpoint. -/
def createProduct (body : CreateBody) (id : Nat) : Product :=
  { id := id, sku := body.sku, name := body.name,
    warehouseQty := jsOrInt body.warehouseQty 0,
    amazonQty := 0, mlQty := 0,
    amazonAsin := body.amazonAsin, mlItemId := body.mlItemId,
    lastSyncAt := none }

/-- The manual warehouse-quantity edit (PUT /api/inventory/[id]): the
body's `warehouseQty` is written to the row as-is, with no validation;
an absent field leaves the row unchanged (Prisma skips `undefined`). -/
def putWarehouseQty (p : Product) (warehouseQty : Option Int) : Product :=
  match warehouseQty with
  | none => p
  | some w => { p with warehouseQty := w }

/-- The dashboard listing endpoint (GET /api/inventory) orders its
`findMany` by SKU ascending; this predicate states that ordering. -/
def skuAscending (l : List Product) : Prop :=
  List.Pairwise (fun a b => a.sku < b.sku) l

/-- Oracle environment where every marketplace call succeeds and the
Amazon read reports 97 units against a recorded 100. -/
def env100 : SyncEnv :=
  { getAmazon := fun _ => .ok (some 97),
    getML := fun _ => .ok (some 100),
    updateAmazon := fun _ _ => .ok true,
    updateML := fun _ _ => .ok true,
    dbUpdate := fun _ => .ok (),
    now := 1 }

/-- Like `env100` but the Mercado Libre read reports an increase (105). -/
def envInc : SyncEnv :=
  { env100 with getML := fun _ => .ok (some 105) }

/-- A product recorded at 100 units everywhere, with both ids configured. -/
def p100 : Product :=
  { id := 1, sku := "SKU1", name := "n", warehouseQty := 100,
    amazonQty := 100, mlQty := 100, amazonAsin := some "A",
    mlItemId := some "M", lastSyncAt := none }

/-- Environment in which the Amazon call of the product with SKU `P2`
rejects and every other call succeeds. -/
def envIso : SyncEnv :=
  { getAmazon := fun s => if s == "P2" then .error "boom" else .ok (some 10),
    getML := fun _ => .ok none,
    updateAmazon := fun _ _ => .ok true,
    updateML := fun _ _ => .ok true,
    dbUpdate := fun _ => .ok (),
    now := 5 }

/-- Three products, of which the second will fail in `envIso`. -/
def dbIso : List Product :=
  [{ id := 1, sku := "P1", name := "a", warehouseQty := 20, amazonQty := 12,
     mlQty := 0, amazonAsin := some "A1", mlItemId := none, lastSyncAt := none },
   { id := 2, sku := "P2", name := "b", warehouseQty := 30, amazonQty := 13,
     mlQty := 0, amazonAsin := some "A2", mlItemId := none, lastSyncAt := none },
   { id := 3, sku := "P3", name := "c", warehouseQty := 40, amazonQty := 14,
     mlQty := 0, amazonAsin := some "A3", mlItemId := none, lastSyncAt := none }]

/-- Environment whose Amazon read oracle is the composed client call with a
failing token endpoint: the value the sync loop actually receives then is
`Except.ok none`, not a rejection. -/
def envAuthFail : SyncEnv :=
  { getAmazon := fun _ =>
      Amazon.getAmazonInventory none 0 (.httpError "invalid_grant")
        (.ok (some { totalQuantity := some 5 })),
    getML := fun _ => .ok none,
    updateAmazon := fun _ _ => .ok true,
    updateML := fun _ _ => .ok true,
    dbUpdate := fun _ => .ok (),
    now := 0 }

/-- A product with an Amazon id configured, for the auth-failure runs. -/
def pAuth : Product :=
  { id := 4, sku := "S4", name := "z", warehouseQty := 10, amazonQty := 8,
    mlQty := 0, amazonAsin := some "ASIN", mlItemId := none, lastSyncAt := none }

/-- Benign all-success environment for the processing-order runs. -/
def envOrder : SyncEnv :=
  { getAmazon := fun _ => .ok (some 2),
    getML := fun _ => .ok (some 2),
    updateAmazon := fun _ _ => .ok true,
    updateML := fun _ _ => .ok true,
    dbUpdate := fun _ => .ok (),
    now := 7 }

/-- Product with SKU `A`. -/
def prodA : Product :=
  { id := 11, sku := "A", name := "pa", warehouseQty := 6, amazonQty := 2,
    mlQty := 2, amazonAsin := some "AA", mlItemId := none, lastSyncAt := none }

/-- Product with SKU `B`. -/
def prodB : Product :=
  { id := 12, sku := "B", name := "pb", warehouseQty := 6, amazonQty := 2,
    mlQty := 2, amazonAsin := some "AB", mlItemId := none, lastSyncAt := none }

/-- Environment where both marketplace pushes report failure (`false`). -/
def envPushFail : SyncEnv :=
  { getAmazon := fun _ => .ok (some 97),
    getML := fun _ => .ok none,
    updateAmazon := fun _ _ => .ok false,
    updateML := fun _ _ => .ok false,
    dbUpdate := fun _ => .ok (),
    now := 9 }

/-- A valid cached Mercado Libre token. -/
def mlCache : ML.Cache := { token := "t", refreshToken := "r", expiresAt := 1000 }

/-- Item with two variations, ids 1 and 2, quantities 5 and 9. -/
def item12 : ML.Item :=
  { available_quantity := some 7,
    variations := some [{ id := 1, available_quantity := some 5 },
                        { id := 2, available_quantity := some 9 }] }

/-- Item without a variations list. -/
def itemNoVars : ML.Item := { available_quantity := some 4, variations := none }

/-- Item with an empty variations list and no item-level quantity. -/
def itemEmptyVars : ML.Item := { available_quantity := none, variations := some [] }

/-- A stored product row with a non-negative warehouse quantity. -/
def pExample : Product :=
  { id := 9, sku := "S", name := "x", warehouseQty := 5, amazonQty := 0,
    mlQty := 0, amazonAsin := none, mlItemId := none, lastSyncAt := none }

/-- Creation request carrying a negative warehouse quantity. -/
def bodyNeg : CreateBody :=
  { sku := "S2", name := "y", warehouseQty := some (-5),
    amazonAsin := none, mlItemId := none }

/-- Creation request carrying a non-negative warehouse quantity. -/
def bodyOk : CreateBody :=
  { sku := "S3", name := "w", warehouseQty := some 2,
    amazonAsin := none, mlItemId := none }

/-- C1: in the sales-delta (Variant A) reconciliation, when both fetches
resolve, each marketplace's detected sales equal
`max 0 (previous - current)` where `current` falls back to the recorded
quantity when the marketplace is not configured or the fetch resolved to
`null`; the new quantity is `max 0 (warehouse - (sales_A + sales_B))`;
and a current quantity above the previous one yields zero sales. -/
theorem variantA_sales_delta (env : SyncEnv) (p : Product) (ra rm : Option Int)
    (ha : env.getAmazon p.sku = .ok ra)
    (hm : env.getML (p.mlItemId.getD "") = .ok rm) :
    (SyncA.processProduct env p).detail.amazonSales
        = max 0 (p.amazonQty -
            (if jsTruthyStr p.amazonAsin then ra.getD p.amazonQty else p.amazonQty)) ∧
    (SyncA.processProduct env p).detail.mlSales
        = max 0 (p.mlQty -
            (if jsTruthyStr p.mlItemId then rm.getD p.mlQty else p.mlQty)) ∧
    (SyncA.processProduct env p).detail.newQty
        = max 0 (p.warehouseQty -
            ((SyncA.processProduct env p).detail.amazonSales +
             (SyncA.processProduct env p).detail.mlSales)) ∧
    (p.amazonQty < (if jsTruthyStr p.amazonAsin then ra.getD p.amazonQty else p.amazonQty) →
      (SyncA.processProduct env p).detail.amazonSales = 0) ∧
    (p.mlQty < (if jsTruthyStr p.mlItemId then rm.getD p.mlQty else p.mlQty) →
      (SyncA.processProduct env p).detail.mlSales = 0) := by
  unfold SyncA.processProduct
  cases hta : jsTruthyStr p.amazonAsin <;> cases htm : jsTruthyStr p.mlItemId <;>
    simp only [hta, htm, Bool.false_eq_true, if_true, if_false, ha, hm, ite_true, ite_false] <;>
    (repeat' split) <;>
    refine ⟨rfl, rfl, rfl, ?_, ?_⟩ <;> intro hlt <;> (apply max_eq_left; omega)

/-- C1 witness: with previous quantities 100/100, fetched quantities 97/100
and warehouse 100, the detected sales are 3 and 0 and the new quantity is
97; and a fetched increase (105 against 100) yields zero sales. -/
theorem variantA_sales_delta_witness :
    (SyncA.processProduct env100 p100).detail.amazonSales = 3 ∧
    (SyncA.processProduct env100 p100).detail.mlSales = 0 ∧
    (SyncA.processProduct env100 p100).detail.newQty = 97 ∧
    (SyncA.processProduct envInc p100).detail.mlSales = 0 := by
  have h1 := variantA_sales_delta env100 p100 (some 97) (some 100) rfl rfl
  have h2 := variantA_sales_delta envInc p100 (some 97) (some 105) rfl rfl
  exact ⟨by rfl, by rfl, by rfl, h2.2.2.2.2 (by decide)⟩

/-- The detail rows of the sales-delta loop are exactly the per-product
results, in the order of the listing snapshot. -/
theorem runLoopA_spec (env : SyncEnv) (l : List Product) :
    (SyncA.runLoop env l).1 = l.map (fun p => (SyncA.processProduct env p).detail) := by
  induction l with
  | nil => rfl
  | cons p ps ih => simp [SyncA.runLoop, ih]

/-- C3: per-product failure isolation in the sales-delta batch.  Every
product of the listing yields exactly one detail row, computed from that
product alone (so one product's exception never aborts the others); the
batch's `success` is true exactly when no product recorded an error, and
the persisted log entry's status is `success` with zero errors and
`partial` otherwise.  Concretely, when product 2 of 3 rejects during its
Amazon call, products 1 and 3 still get their marketplace and database
updates and the batch reports `success = false` with one error. -/
theorem variantA_failure_isolation :
    (∀ (env : SyncEnv) (db : List Product),
      (SyncA.syncAllInventory env (.ok db)).details
          = db.map (fun p => (SyncA.processProduct env p).detail) ∧
      (SyncA.syncAllInventory env (.ok db)).success
          = (((SyncA.syncAllInventory env (.ok db)).details.filter
                (fun d => d.error.isSome)).length == 0) ∧
      (SyncA.syncAllInventory env (.ok db)).log.status
          = (if ((SyncA.syncAllInventory env (.ok db)).details.filter
                  (fun d => d.error.isSome)).length == 0
             then "success" else "partial")) ∧
    (SyncA.syncAllInventory envIso (.ok dbIso)).success = false ∧
    ((SyncA.syncAllInventory envIso (.ok dbIso)).details.filter
        (fun d => d.error.isSome)).length = 1 ∧
    (SyncA.syncAllInventory envIso (.ok dbIso)).details.map
        (fun d => (d.amazonUpdated, d.error.isSome))
      = [(true, false), (false, true), (true, false)] ∧
    (SyncA.syncAllInventory envIso (.ok dbIso)).writes.map
        (fun w => w.id) = [1, 3] ∧
    (SyncA.syncAllInventory envIso (.ok dbIso)).log.status = "partial" := by
  refine ⟨fun env db => ⟨?_, rfl, rfl⟩, ?_, ?_, ?_, ?_, ?_⟩
  · simpa [SyncA.syncAllInventory] using runLoopA_spec env db
  all_goals rfl

/-- C2 counterexample: with the token endpoint answering a non-success
status, `getAccessToken` does throw, but `getAmazonInventory` resolves to
`Except.ok none` — the auth error does not propagate to the caller — and
in the reconciliation loop the affected product records no error string
(its detail's `error` is `none`), counting as a silent fallback rather
than an error. -/
theorem authError_not_propagated_cex :
    (Amazon.getAccessToken none 0 (.httpError "invalid_grant")).1
        = .error "Failed to get Amazon access token: invalid_grant" ∧
    (Amazon.getAccessToken none 0 (.httpError "invalid_grant")).2 = 1 ∧
    Amazon.getAmazonInventory none 0 (.httpError "invalid_grant")
        (.ok (some { totalQuantity := some 5 })) = .ok none ∧
    (SyncA.processProduct envAuthFail pAuth).detail.error = none ∧
    (SyncA.processProduct envAuthFail pAuth).detail.amazonSales = 0 :=
  ⟨rfl, rfl, rfl, rfl, rfl⟩

/-- C2 amended: when authentication fails (non-success token endpoint for
Amazon with no valid cached token, or an absent Mercado Libre refresh
credential), the failure is swallowed by each client function's catch-all:
`getInventory` resolves to `Except.ok none` and `updateInventory` to
`Except.ok false`; consequently in the reconciliation loop the product
records no error string and silently falls back to its previous recorded
quantity (zero detected sales for that marketplace). -/
theorem authError_swallowed (c : Option Amazon.Cache) (now : Int) (etext : String)
    (invResp : HttpResult (Option Amazon.InvSummary)) (putResp : HttpResult Unit)
    (mtresp : HttpResult ML.TokenResp) (mitem : HttpResult ML.Item) (vid : Option String)
    (env : SyncEnv) (p : Product) (rm : Option Int) (ua um : Bool)
    (hexp : ∀ cc, c = some cc → cc.expiresAt ≤ now)
    (ha : env.getAmazon p.sku = .ok none)
    (hm : env.getML (p.mlItemId.getD "") = .ok rm)
    (hua : ∀ q : Int, env.updateAmazon p.sku q = .ok ua)
    (hum : ∀ q : Int, env.updateML (p.mlItemId.getD "") q = .ok um)
    (hdb : env.dbUpdate p.id = .ok ()) :
    Amazon.getAmazonInventory c now (.httpError etext) invResp = .ok none ∧
    Amazon.updateAmazonInventory c now (.httpError etext) putResp = .ok false ∧
    ML.getMLInventory none none now mtresp mitem vid = .ok none ∧
    (SyncA.processProduct env p).detail.error = none ∧
    (SyncA.processProduct env p).detail.amazonSales = 0 := by
  refine ⟨?_, ?_, rfl, ?_, ?_⟩
  · unfold Amazon.getAmazonInventory Amazon.getAccessToken Amazon.freshToken
    cases c with
    | none => rfl
    | some cc =>
        have h := hexp cc rfl
        simp [not_lt.mpr h]
  · unfold Amazon.updateAmazonInventory Amazon.getAccessToken Amazon.freshToken
    cases c with
    | none => rfl
    | some cc =>
        have h := hexp cc rfl
        simp [not_lt.mpr h]
  · unfold SyncA.processProduct
    cases hta : jsTruthyStr p.amazonAsin <;> cases htm : jsTruthyStr p.mlItemId <;>
      simp [hta, htm, ha, hm, hua, hum, hdb, SyncA.initDetail]
  · unfold SyncA.processProduct
    cases hta : jsTruthyStr p.amazonAsin <;> cases htm : jsTruthyStr p.mlItemId <;>
      simp [hta, htm, ha, hm, hua, hum, hdb, SyncA.initDetail]

/-- C2 amended witness: concrete instances of the swallowed-failure
behavior for both clients and for the loop. -/
theorem authError_swallowed_witness :
    Amazon.getAmazonInventory none 0 (.httpError "invalid_grant") (.ok none) = .ok none ∧
    Amazon.updateAmazonInventory none 0 (.httpError "invalid_grant") (.ok ()) = .ok false ∧
    ML.getMLInventory none none 0 (.netThrow "x") (.httpError "y") none = .ok none ∧
    (SyncA.processProduct envAuthFail pAuth).detail.error = none := by
  have h := authError_swallowed none 0 "invalid_grant" (.ok none) (.ok ())
      (.netThrow "x") (.httpError "y") none envAuthFail pAuth none true true
      (fun cc hcc => by cases hcc) rfl rfl (fun _ => rfl) (fun _ => rfl) rfl
  exact ⟨h.1, h.2.1, h.2.2.1, h.2.2.2.1⟩

/-- C4: token cache policy of both marketplace clients.  With `now` before
the cached expiry, `getAccessToken` returns the cached token, leaves the
cache unchanged and makes zero token-endpoint calls; otherwise it makes
exactly one call (for Mercado Libre, given an available refresh
credential), and on a successful exchange caches the fresh token expiring
`(expires_in - 300)` seconds from now and returns it. -/
theorem token_cache_policy (c : Amazon.Cache) (mc : ML.Cache) (now : Int)
    (aresp : HttpResult Amazon.TokenResp) (mresp : HttpResult ML.TokenResp)
    (adata : Amazon.TokenResp) (mdata : ML.TokenResp) (envRt : Option String) :
    (now < c.expiresAt →
        Amazon.getAccessToken (some c) now aresp = (.ok (c.token, some c), 0)) ∧
    (¬ now < c.expiresAt → (Amazon.getAccessToken (some c) now aresp).2 = 1) ∧
    (¬ now < c.expiresAt →
        Amazon.getAccessToken (some c) now (.ok adata) =
          (.ok (adata.access_token,
            some { token := adata.access_token,
                   expiresAt := now + (adata.expires_in - 300) * 1000 }), 1)) ∧
    (now < mc.expiresAt →
        ML.getAccessToken (some mc) envRt now mresp = (.ok (mc.token, some mc), 0)) ∧
    (¬ now < mc.expiresAt → ¬ mc.refreshToken.isEmpty →
        (ML.getAccessToken (some mc) envRt now mresp).2 = 1) ∧
    (¬ now < mc.expiresAt → ¬ mc.refreshToken.isEmpty →
        ML.getAccessToken (some mc) envRt now (.ok mdata) =
          (.ok (mdata.access_token,
            some { token := mdata.access_token,
                   refreshToken := mdata.refresh_token,
                   expiresAt := now + (mdata.expires_in - 300) * 1000 }), 1)) := by
  refine ⟨?_, ?_, ?_, ?_, ?_, ?_⟩
  · intro h
    simp [Amazon.getAccessToken, h]
  · intro h
    cases aresp <;> simp [Amazon.getAccessToken, Amazon.freshToken, h]
  · intro h
    simp [Amazon.getAccessToken, Amazon.freshToken, h]
  · intro h
    simp [ML.getAccessToken, h]
  · intro h hr
    have ht : jsTruthyStr (jsOrStr (some mc.refreshToken) envRt) = true := by
      simp [jsTruthyStr, jsOrStr, hr]
    cases mresp <;> simp [ML.getAccessToken, h, ht]
  · intro h hr
    have ht : jsTruthyStr (jsOrStr (some mc.refreshToken) envRt) = true := by
      simp [jsTruthyStr, jsOrStr, hr]
    simp [ML.getAccessToken, h, ht]

/-- C4 witness: a future-expiry token is returned with zero endpoint calls
and a past-expiry token triggers exactly one call, caching the fresh token
with the 300-second safety margin, for both clients. -/
theorem token_cache_policy_witness :
    Amazon.getAccessToken (some { token := "atok", expiresAt := 1000 }) 500
        (.httpError "x")
      = (.ok ("atok", some { token := "atok", expiresAt := 1000 }), 0) ∧
    Amazon.getAccessToken (some { token := "atok", expiresAt := 1000 }) 2000
        (.ok { access_token := "fresh", expires_in := 3600 })
      = (.ok ("fresh", some { token := "fresh", expiresAt := 3302000 }), 1) ∧
    ML.getAccessToken (some { token := "mtok", refreshToken := "r", expiresAt := 1000 })
        none 500 (.httpError "x")
      = (.ok ("mtok", some { token := "mtok", refreshToken := "r", expiresAt := 1000 }), 0) ∧
    ML.getAccessToken (some { token := "mtok", refreshToken := "r", expiresAt := 1000 })
        none 2000 (.ok { access_token := "mfresh", refresh_token := "r2", expires_in := 21600 })
      = (.ok ("mfresh", some ⟨"mfresh", "r2", 21302000⟩), 1) := by
  have h1 := token_cache_policy { token := "atok", expiresAt := 1000 }
      { token := "mtok", refreshToken := "r", expiresAt := 1000 } 500
      (.httpError "x") (.httpError "x")
      { access_token := "fresh", expires_in := 3600 }
      { access_token := "mfresh", refresh_token := "r2", expires_in := 21600 } none
  have h2 := token_cache_policy { token := "atok", expiresAt := 1000 }
      { token := "mtok", refreshToken := "r", expiresAt := 1000 } 2000
      (.httpError "x") (.httpError "x")
      { access_token := "fresh", expires_in := 3600 }
      { access_token := "mfresh", refresh_token := "r2", expires_in := 21600 } none
  refine ⟨h1.1 (by decide), ?_, h1.2.2.2.1 (by decide), ?_⟩
  · have := h2.2.2.1 (by decide)
    exact this
  · have := h2.2.2.2.2.2 (by decide) (by decide)
    exact this

/-- C5: with authentication succeeding, a truthy requested variation id
and a non-empty variations list, the Mercado Libre read returns the
matching variation's quantity when the list contains a variation whose
printed id equals the requested id, and `none` (absent) when no variation
matches. -/
theorem ml_variant_lookup (cache : Option ML.Cache) (envRt : Option String)
    (now : Int) (tresp : HttpResult ML.TokenResp) (tok : String)
    (st : Option ML.Cache) (item : ML.Item) (vars : List ML.Variation) (vid : String)
    (hauth : (ML.getAccessToken cache envRt now tresp).1 = .ok (tok, st))
    (hvars : item.variations = some vars) (hne : vars ≠ [])
    (hvid : ¬ vid.isEmpty) :
    (∀ v, vars.find? (fun x => toString x.id == vid) = some v →
        ML.getMLInventory cache envRt now tresp (.ok item) (some vid)
          = .ok (some (jsOrInt v.available_quantity 0))) ∧
    (vars.find? (fun x => toString x.id == vid) = none →
        ML.getMLInventory cache envRt now tresp (.ok item) (some vid) = .ok none) := by
  have hlen : 0 < vars.length := List.length_pos.mpr hne
  have htr : jsTruthyStr (some vid) = true := by simp [jsTruthyStr, hvid]
  constructor
  · intro v hfind
    unfold ML.getMLInventory
    rw [hauth]
    simp [hvars, htr, hlen, hfind]
  · intro hfind
    unfold ML.getMLInventory
    rw [hauth]
    simp [hvars, htr, hlen, hfind]

/-- C5 witness: on the item with variations `[(1,5),(2,9)]`, requesting
variation id `2` yields quantity 9 and requesting id `99` yields absent. -/
theorem ml_variant_lookup_witness :
    ML.getMLInventory (some mlCache) none 0 (.netThrow "x") (.ok item12) (some "2")
        = .ok (some 9) ∧
    ML.getMLInventory (some mlCache) none 0 (.netThrow "x") (.ok item12) (some "99")
        = .ok none := by
  have hauth : (ML.getAccessToken (some mlCache) none 0 (.netThrow "x")).1
      = .ok ("t", some mlCache) := rfl
  have h1 := (ml_variant_lookup (some mlCache) none 0 (.netThrow "x") "t" (some mlCache)
      item12 [{ id := 1, available_quantity := some 5 },
              { id := 2, available_quantity := some 9 }] "2"
      hauth rfl (by decide) (by decide)).1
      { id := 2, available_quantity := some 9 } (by decide)
  have h2 := (ml_variant_lookup (some mlCache) none 0 (.netThrow "x") "t" (some mlCache)
      item12 [{ id := 1, available_quantity := some 5 },
              { id := 2, available_quantity := some 9 }] "99"
      hauth rfl (by decide) (by decide)).2 (by decide)
  exact ⟨h1, h2⟩

/-- C10: with authentication succeeding and a requested variation id, when
the fetched item has no variations list or an empty one, the Mercado Libre
read does not return absent: it falls back to the item-level
`available_quantity` (zero when that field is missing), even though the
requested variation was never found. -/
theorem ml_variant_fallback (cache : Option ML.Cache) (envRt : Option String)
    (now : Int) (tresp : HttpResult ML.TokenResp) (tok : String)
    (st : Option ML.Cache) (item : ML.Item) (vid : String)
    (hauth : (ML.getAccessToken cache envRt now tresp).1 = .ok (tok, st))
    (hvars : item.variations = none ∨ item.variations = some []) :
    ML.getMLInventory cache envRt now tresp (.ok item) (some vid)
        = .ok (some (jsOrInt item.available_quantity 0)) ∧
    ML.getMLInventory cache envRt now tresp (.ok item) (some vid) ≠ .ok none := by
  have hres : ML.getMLInventory cache envRt now tresp (.ok item) (some vid)
      = .ok (some (jsOrInt item.available_quantity 0)) := by
    unfold ML.getMLInventory
    rw [hauth]
    rcases hvars with h | h <;> simp [h]
  exact ⟨hres, by rw [hres]; simp⟩

/-- C10 witness: requesting variation `99` on an item without a variations
list yields the item-level quantity 4, and on an item with an empty list
and a missing item-level field yields 0 — in neither case absent. -/
theorem ml_variant_fallback_witness :
    ML.getMLInventory (some mlCache) none 0 (.netThrow "x") (.ok itemNoVars) (some "99")
        = .ok (some 4) ∧
    ML.getMLInventory (some mlCache) none 0 (.netThrow "x") (.ok itemEmptyVars) (some "99")
        = .ok (some 0) := by
  have hauth : (ML.getAccessToken (some mlCache) none 0 (.netThrow "x")).1
      = .ok ("t", some mlCache) := rfl
  have h1 := ml_variant_fallback (some mlCache) none 0 (.netThrow "x") "t" (some mlCache)
      itemNoVars "99" hauth (Or.inl rfl)
  have h2 := ml_variant_fallback (some mlCache) none 0 (.netThrow "x") "t" (some mlCache)
      itemEmptyVars "99" hauth (Or.inr rfl)
  exact ⟨h1.1, h2.1⟩

/-- C6 counterexample: the manual warehouse-quantity edit and the
product-creation endpoint store a negative body value as-is, violating
the quantities-are-non-negative invariant. -/
theorem nonneg_invariant_cex :
    (putWarehouseQty pExample (some (-1))).warehouseQty = -1 ∧
    ¬ 0 ≤ (putWarehouseQty pExample (some (-1))).warehouseQty ∧
    (createProduct bodyNeg 7).warehouseQty = -5 ∧
    ¬ 0 ≤ (createProduct bodyNeg 7).warehouseQty := by
  refine ⟨rfl, by decide, rfl, by decide⟩

/-- C6 amended: reconciliation always produces a non-negative new quantity
(given a non-negative stored warehouse quantity, since an early exception
leaves it unchanged), but creation and the manual edit perform no
validation: they preserve non-negativity only when the supplied value is
itself non-negative (creation defaults an absent or zero value to 0). -/
theorem nonneg_invariant_guarded :
    (∀ (env : SyncEnv) (p : Product), 0 ≤ p.warehouseQty →
        0 ≤ (SyncA.processProduct env p).detail.newQty) ∧
    (∀ (p : Product) (wq : Option Int), 0 ≤ p.warehouseQty →
        (∀ w, wq = some w → 0 ≤ w) →
        0 ≤ (putWarehouseQty p wq).warehouseQty) ∧
    (∀ (body : CreateBody) (id : Nat),
        (∀ w, body.warehouseQty = some w → 0 ≤ w) →
        0 ≤ (createProduct body id).warehouseQty) := by
  refine ⟨?_, ?_, ?_⟩
  · intro env p h
    unfold SyncA.processProduct
    repeat' split
    all_goals try dsimp only [SyncA.initDetail]
    all_goals repeat' split
    all_goals try dsimp only
    all_goals first
      | exact h
      | exact le_max_left _ _
  · intro p wq h hw
    cases wq with
    | none => exact h
    | some w => exact hw w rfl
  · intro body id hw
    unfold createProduct jsOrInt
    cases hq : body.warehouseQty with
    | none => simp
    | some w =>
        simp only
        split
        · simp
        · exact hw w hq

/-- C6 amended witness: the guarded non-negativity of all three operations
at concrete non-negative inputs. -/
theorem nonneg_invariant_guarded_witness :
    0 ≤ (SyncA.processProduct env100 p100).detail.newQty ∧
    0 ≤ (putWarehouseQty pExample (some 3)).warehouseQty ∧
    0 ≤ (createProduct bodyOk 7).warehouseQty := by
  have h := nonneg_invariant_guarded
  refine ⟨h.1 env100 p100 (by decide), h.2.1 pExample (some 3) (by decide) ?_,
          h.2.2 bodyOk 7 ?_⟩
  · intro w hw
    cases hw
    decide
  · intro w hw
    cases hw
    decide

/-- C8 counterexample: the reconciliation listing (`findMany` with no
`orderBy`) can return products in any persistence order; when it returns
SKU `B` before SKU `A`, the loop processes them in exactly that order,
which is not ascending by SKU. -/
theorem sync_order_cex :
    (SyncA.syncAllInventory envOrder (.ok [prodB, prodA])).details.map
        (fun d => d.sku) = ["B", "A"] ∧
    ¬ List.Pairwise (fun a b : String => a < b)
        ((SyncA.syncAllInventory envOrder (.ok [prodB, prodA])).details.map
          (fun d => d.sku)) := by
  refine ⟨rfl, ?_⟩
  have hskus : (SyncA.syncAllInventory envOrder (.ok [prodB, prodA])).details.map
      (fun d => d.sku) = ["B", "A"] := rfl
  rw [hskus]
  simp only [List.pairwise_cons]
  intro h
  have h2 := h.1 "A" (List.mem_singleton.mpr rfl)
  rw [String.lt_iff_toList_lt] at h2
  exact absurd h2 (by decide)

/-- The per-product detail always carries the product's own SKU. -/
theorem detailA_sku (env : SyncEnv) (p : Product) :
    (SyncA.processProduct env p).detail.sku = p.sku := by
  unfold SyncA.processProduct
  repeat' split
  all_goals try dsimp only [SyncA.initDetail]
  all_goals repeat' split
  all_goals simp [SyncA.initDetail]

/-- C8 amended: the batch processes products one at a time, sequentially,
emitting exactly one detail row per product in the exact order of the
listing snapshot — the order `findMany` returned, on which the sync
routine imposes no SKU ordering clause. -/
theorem sync_processing_order (env : SyncEnv) (db : List Product) :
    (SyncA.syncAllInventory env (.ok db)).details.map (fun d => d.sku)
        = db.map Product.sku := by
  have h := runLoopA_spec env db
  show (SyncA.runLoop env db).1.map (fun d => d.sku) = db.map Product.sku
  rw [h, List.map_map]
  exact List.map_congr_left (fun p _ => detailA_sku env p)

/-- C9: in the sales-delta variant, once a product's processing reaches its
database write, that write sets `warehouseQty`, `amazonQty` and `mlQty`
all to the computed new quantity plus the sync timestamp, for any outcome
of the marketplace pushes — a push reporting `false` does not change the
write, so the stored marketplace snapshot is overwritten with the pushed
value even after a failed push. -/
theorem variantA_write_overwrites (env : SyncEnv) (p : Product) (ra rm : Option Int)
    (ua um : Bool)
    (ha : env.getAmazon p.sku = .ok ra)
    (hm : env.getML (p.mlItemId.getD "") = .ok rm)
    (hua : ∀ q : Int, env.updateAmazon p.sku q = .ok ua)
    (hum : ∀ q : Int, env.updateML (p.mlItemId.getD "") q = .ok um)
    (hdb : env.dbUpdate p.id = .ok ()) :
    (SyncA.processProduct env p).write =
      some { id := p.id,
             warehouseQty := (SyncA.processProduct env p).detail.newQty,
             amazonQty := (SyncA.processProduct env p).detail.newQty,
             mlQty := (SyncA.processProduct env p).detail.newQty,
             lastSyncAt := env.now } ∧
    (SyncA.processProduct env p).detail.amazonUpdated
        = (if jsTruthyStr p.amazonAsin then ua else false) := by
  unfold SyncA.processProduct
  cases hta : jsTruthyStr p.amazonAsin <;> cases htm : jsTruthyStr p.mlItemId <;>
    simp [hta, htm, ha, hm, hua, hum, hdb]

/-- C9 witness: with both pushes failing, the write still sets all three
quantity fields to the computed new quantity 97. -/
theorem variantA_write_overwrites_witness :
    (SyncA.processProduct envPushFail p100).detail.amazonUpdated = false ∧
    (SyncA.processProduct envPushFail p100).write
      = some { id := 1, warehouseQty := 97, amazonQty := 97, mlQty := 97,
               lastSyncAt := 9 } := by
  have h := variantA_write_overwrites envPushFail p100 (some 97) none false false
      rfl rfl (fun _ => rfl) (fun _ => rfl) rfl
  exact ⟨h.2, h.1⟩

/-- The direct-overwrite database write never touches a product's id, SKU,
name, warehouse quantity, or external ids. -/
theorem preservedFields_newProd (env : SyncEnv) (p : Product) :
    SyncB.preservedFields (SyncB.processProduct env p).newProd
      = SyncB.preservedFields p := by
  unfold SyncB.processProduct
  repeat' split
  all_goals try dsimp only
  all_goals repeat' split
  all_goals simp [SyncB.preservedFields]

/-- The direct-overwrite loop body reads only the fields its database
write preserves, so two products agreeing on those fields yield the same
detail row and the same marketplace pushes. -/
theorem processProductB_congr (env : SyncEnv) (p q : Product)
    (h1 : p.id = q.id) (h2 : p.sku = q.sku) (h3 : p.warehouseQty = q.warehouseQty)
    (h4 : p.amazonAsin = q.amazonAsin) (h5 : p.mlItemId = q.mlItemId) :
    (SyncB.processProduct env p).detail = (SyncB.processProduct env q).detail ∧
    (SyncB.processProduct env p).pushes = (SyncB.processProduct env q).pushes := by
  unfold SyncB.processProduct
  rw [h1, h2, h3, h4, h5]
  cases hA : (if jsTruthyStr q.amazonAsin then env.getAmazon q.sku else Except.ok none) with
  | error e => simp
  | ok a =>
    cases hM : (if jsTruthyStr q.mlItemId then env.getML (q.mlItemId.getD "") else Except.ok none) with
    | error e => simp
    | ok m =>
      cases hUA : (if jsTruthyStr q.amazonAsin then env.updateAmazon q.sku q.warehouseQty else Except.ok false) with
      | error e => simp [hUA]
      | ok ua =>
        cases hUM : (if jsTruthyStr q.mlItemId then env.updateML (q.mlItemId.getD "") q.warehouseQty else Except.ok false) with
        | error e => simp [hUA, hUM]
        | ok um =>
          cases hDB : env.dbUpdate q.id with
          | error e => simp [hUA, hUM, hDB]
          | ok u => simp [hUA, hUM, hDB]

/-- Every marketplace push of the direct-overwrite loop body carries the
product's own warehouse quantity. -/
theorem pushesB_qty (env : SyncEnv) (p : Product) :
    ((SyncB.processProduct env p).pushes).all
      (fun pu => pu.qty == p.warehouseQty) = true := by
  unfold SyncB.processProduct
  repeat' split
  all_goals try dsimp only
  all_goals repeat' split
  all_goals simp

/-- The direct-overwrite loop emits one detail row per product, in order. -/
theorem runLoopB_details (env : SyncEnv) (l : List Product) :
    (SyncB.runLoop env l).1 = l.map (fun p => (SyncB.processProduct env p).detail) := by
  induction l with
  | nil => rfl
  | cons p ps ih => simp [SyncB.runLoop, ih]

/-- The product table after the direct-overwrite loop is the per-product
written rows, in order. -/
theorem runLoopB_db (env : SyncEnv) (l : List Product) :
    (SyncB.runLoop env l).2.2 = l.map (fun p => (SyncB.processProduct env p).newProd) := by
  induction l with
  | nil => rfl
  | cons p ps ih => simp [SyncB.runLoop, ih]

/-- The direct-overwrite loop preserves every field outside
`amazonQty`, `mlQty`, `lastSyncAt` across the whole table. -/
theorem runLoopB_db_preserved (env : SyncEnv) (l : List Product) :
    (SyncB.runLoop env l).2.2.map SyncB.preservedFields = l.map SyncB.preservedFields := by
  rw [runLoopB_db, List.map_map]
  exact List.map_congr_left (fun p _ => preservedFields_newProd env p)

/-- Equal preserved-field tuples mean equal individual preserved fields. -/
theorem preservedFields_ext {p q : Product}
    (h : SyncB.preservedFields p = SyncB.preservedFields q) :
    p.id = q.id ∧ p.sku = q.sku ∧ p.name = q.name ∧ p.warehouseQty = q.warehouseQty ∧
    p.amazonAsin = q.amazonAsin ∧ p.mlItemId = q.mlItemId := by
  unfold SyncB.preservedFields at h
  simpa [Prod.ext_iff] using h

/-- Two product tables with equal preserved fields produce identical
details and pushes under the direct-overwrite loop, and their resulting
tables again have equal preserved fields. -/
theorem runLoopB_stable (env : SyncEnv) (l : List Product) :
    ∀ (l' : List Product),
      l'.map SyncB.preservedFields = l.map SyncB.preservedFields →
      (SyncB.runLoop env l').1 = (SyncB.runLoop env l).1 ∧
      (SyncB.runLoop env l').2.1 = (SyncB.runLoop env l).2.1 ∧
      (SyncB.runLoop env l').2.2.map SyncB.preservedFields
          = (SyncB.runLoop env l).2.2.map SyncB.preservedFields := by
  induction l with
  | nil =>
    intro l' h
    simp only [List.map_nil, List.map_eq_nil_iff] at h
    subst h
    exact ⟨rfl, rfl, rfl⟩
  | cons p ps ih =>
    intro l' h
    cases l' with
    | nil => simp at h
    | cons q qs =>
      simp only [List.map_cons, List.cons.injEq] at h
      obtain ⟨hpq, hrest⟩ := h
      obtain ⟨e1, e2, _, e4, e5, e6⟩ := preservedFields_ext hpq
      obtain ⟨hd, hp⟩ := processProductB_congr env q p e1 e2 e4 e5 e6
      obtain ⟨ihd, ihp, ihdb⟩ := ih qs hrest
      refine ⟨?_, ?_, ?_⟩
      · simp only [SyncB.runLoop, hd, ihd]
      · simp only [SyncB.runLoop, hp, ihp]
      · simp only [SyncB.runLoop, List.map_cons, ihdb,
          preservedFields_newProd, hpq]

/-- Every pushed quantity of a direct-overwrite batch is the warehouse
quantity of some product in the listing. -/
theorem runLoopB_pushes_qty (env : SyncEnv) (l : List Product) :
    ((SyncB.runLoop env l).2.1.map SyncB.Push.qty).all
      (fun q => (l.map Product.warehouseQty).contains q) = true := by
  induction l with
  | nil => rfl
  | cons p ps ih =>
    rw [List.all_eq_true]
    intro q hq
    rw [List.mem_map] at hq
    obtain ⟨pu, hpu, rfl⟩ := hq
    simp only [SyncB.runLoop, List.mem_append] at hpu
    rcases hpu with hpu | hpu
    · have hall := List.all_eq_true.mp (pushesB_qty env p) pu hpu
      have : pu.qty = p.warehouseQty := by simpa using hall
      rw [this]
      exact List.elem_iff.mpr (by simp)
    · have := List.all_eq_true.mp ih (SyncB.Push.qty pu)
        (List.mem_map.mpr ⟨pu, hpu, rfl⟩)
      have hmem : SyncB.Push.qty pu ∈ ps.map Product.warehouseQty :=
        List.elem_iff.mp this
      exact List.elem_iff.mpr (by simp [List.mem_map] at hmem ⊢; tauto)

/-- C7: the direct-overwrite (Variant B) reconciliation is idempotent with
respect to the pushed value.  Running it twice with the same oracle
environment (no intervening remote changes) attempts exactly the same
marketplace pushes, each carrying an existing (and never modified)
warehouse quantity; the warehouse field and all identity fields of every
product survive both runs unchanged (only the marketplace bookkeeping
quantities and the timestamp are written); the second run produces the
same detail rows, so the two persisted log entries have equal status. -/
theorem variantB_idempotent (env : SyncEnv) (db : List Product) :
    (SyncB.syncAllInventory env
        (.ok (SyncB.syncAllInventory env (.ok db)).db)).pushes
      = (SyncB.syncAllInventory env (.ok db)).pushes ∧
    (((SyncB.syncAllInventory env (.ok db)).pushes.map SyncB.Push.qty).all
        (fun q => (db.map Product.warehouseQty).contains q)) = true ∧
    (SyncB.syncAllInventory env (.ok db)).db.map SyncB.preservedFields
        = db.map SyncB.preservedFields ∧
    (SyncB.syncAllInventory env
        (.ok (SyncB.syncAllInventory env (.ok db)).db)).db.map SyncB.preservedFields
        = db.map SyncB.preservedFields ∧
    (SyncB.syncAllInventory env (.ok db)).db.map Product.warehouseQty
        = db.map Product.warehouseQty ∧
    (SyncB.syncAllInventory env
        (.ok (SyncB.syncAllInventory env (.ok db)).db)).details
      = (SyncB.syncAllInventory env (.ok db)).details ∧
    (SyncB.syncAllInventory env
        (.ok (SyncB.syncAllInventory env (.ok db)).db)).log.status
      = (SyncB.syncAllInventory env (.ok db)).log.status := by
  have hpres := runLoopB_db_preserved env db
  obtain ⟨hdet, hpush, hdb2⟩ := runLoopB_stable env db ((SyncB.runLoop env db).2.2) hpres
  have hwq : (SyncB.runLoop env db).2.2.map Product.warehouseQty
      = db.map Product.warehouseQty := by
    have := congrArg (List.map (fun t : Nat × String × String × Int ×
        Option String × Option String => t.2.2.2.1)) hpres
    simpa [List.map_map, SyncB.preservedFields, Function.comp] using this
  refine ⟨?_, ?_, ?_, ?_, ?_, ?_, ?_⟩
  · show (SyncB.runLoop env ((SyncB.runLoop env db).2.2)).2.1 = (SyncB.runLoop env db).2.1
    exact hpush
  · exact runLoopB_pushes_qty env db
  · exact hpres
  · show (SyncB.runLoop env ((SyncB.runLoop env db).2.2)).2.2.map SyncB.preservedFields
        = db.map SyncB.preservedFields
    rw [hdb2, hpres]
  · exact hwq
  · show (SyncB.runLoop env ((SyncB.runLoop env db).2.2)).1 = (SyncB.runLoop env db).1
    exact hdet
  · show (if ((SyncB.runLoop env ((SyncB.runLoop env db).2.2)).1.filter
        (fun d => d.error.isSome)).length == 0 then "success" else "partial")
      = (if ((SyncB.runLoop env db).1.filter
        (fun d => d.error.isSome)).length == 0 then "success" else "partial")
    rw [hdet]
